import Mathlib

/-!
Verification development for the chain-adapter layer of a cross-chain token
bridge: an Aptos chain watcher (node/pkg/aptos/watcher.go) and a family of
per-chain redeemers (TypeScript SDK redeem module).

The Go and TypeScript code is shallowly embedded: machine integers are Nat
with explicit reduction modulo 2 ^ w where overflow matters, JSON field
lookups become Option-valued record fields, fallible paths return Option or
Except, and a Go runtime panic is an explicit outcome constructor.
-/

/-- Modulus of a 64-bit unsigned machine integer. -/
def u64Mod : Nat := 2 ^ 64

/-- Chain identifier of Aptos (vaa.ChainIDAptos). The exact numeral is taken
from the chain-registry enum outside src; only (in)equality with request
chain ids matters below. -/
def aptosChainID : Nat := 22

/-- Big-endian byte decomposition of a 64-bit value, as written by
binary.BigEndian.PutUint64 into an 8-byte buffer. -/
def be8 (n : Nat) : List Nat :=
  [n / 2 ^ 56 % 256, n / 2 ^ 48 % 256, n / 2 ^ 40 % 256, n / 2 ^ 32 % 256,
   n / 2 ^ 24 % 256, n / 2 ^ 16 % 256, n / 2 ^ 8 % 256, n % 256]

/-- Decimal digit test on a character, as in gjson's internal integer
scanner. -/
def isDigitChar (c : Char) : Bool := 48 ≤ c.toNat && c.toNat ≤ 57

/-- The integer conversion gjson applies to a JSON string value in
Result.Uint(): a manual left-to-right decimal scan that accepts only digit
characters, accumulates without an overflow check (so the result wraps
modulo 2 ^ 64), and reports failure on an empty string or any non-digit.
The watcher reads this as 0 on failure. -/
def gjsonParseUint (s : String) : Option Nat :=
  let cs := s.toList
  if cs.isEmpty then none
  else if cs.all isDigitChar then
    some (cs.foldl (fun n c => n * 10 + (c.toNat - 48)) 0 % u64Mod)
  else none

/-- Value of one hexadecimal digit character, accepting both cases, as in
Go encoding/hex. -/
def hexDigitVal (c : Char) : Option Nat :=
  if 48 ≤ c.toNat ∧ c.toNat ≤ 57 then some (c.toNat - 48)
  else if 97 ≤ c.toNat ∧ c.toNat ≤ 102 then some (c.toNat - 87)
  else if 65 ≤ c.toNat ∧ c.toNat ≤ 70 then some (c.toNat - 55)
  else none

/-- Go hex.DecodeString on a character list: fails on odd length or any
non-hex character, otherwise produces one byte per digit pair. -/
def hexDecode : List Char → Option (List Nat)
  | [] => some []
  | [_] => none
  | a :: b :: rest =>
    match hexDigitVal a, hexDigitVal b, hexDecode rest with
    | some x, some y, some tl => some ((x * 16 + y) :: tl)
    | _, _, _ => none

/-- Raw per-event `data` object of the Aptos event RPC response. A present
string-typed field is the unquoted string; a present numeric field is
carried as the value gjson's Uint() conversion yields for it. An absent
field is none. -/
structure RawEventData where
  sender : Option String
  payload : Option String
  timestamp : Option Nat
  nonce : Option Nat
  sequence : Option Nat
  consistency_level : Option Nat
deriving DecidableEq, Repr

/-- Canonical Message record (common.MessagePublication) as the watcher
fills it: 32-byte TxHash and EmitterAddress as byte lists, machine-width
casts made explicit. -/
structure MessagePublication where
  txHash : List Nat
  timestamp : Nat
  nonce : Nat
  sequence : Nat
  emitterChain : Nat
  emitterAddress : List Nat
  payload : List Nat
  consistencyLevel : Nat
deriving DecidableEq, Repr

/-- Outcome of Watcher.observeData on one event: the event is dropped with
no emission, exactly one full Canonical Message is emitted onto the channel,
or the Go runtime panics (the slice expression v.String()[2:] on a payload
string shorter than two bytes). -/
inductive ObserveResult where
  | crash
  | dropped
  | emitted (m : MessagePublication)
deriving DecidableEq, Repr

/-- Watcher.observeData, translated check for check in source order: sender
presence, emitter-identifier validity (a zero parse result is accepted only
for the literal string "0"), payload presence, the two-byte prefix strip
followed by hex decoding, then presence of timestamp, nonce, sequence and
consistency_level; only after every check does it build and emit the
Canonical Message. The Nonce and ConsistencyLevel casts to uint32 and uint8
are the explicit reductions. -/
def observeData (d : RawEventData) (native_seq : Nat) : ObserveResult :=
  match d.sender with
  | none => .dropped
  | some em_string =>
    let em_uint := (gjsonParseUint em_string).getD 0
    if em_string ≠ "0" ∧ em_uint = 0 then .dropped
    else
      let a := List.replicate 24 0 ++ be8 em_uint
      let txHash := List.replicate 24 0 ++ be8 native_seq
      match d.payload with
      | none => .dropped
      | some pstr =>
        if pstr.length < 2 then .crash
        else
          match hexDecode (pstr.toList.drop 2) with
          | none => .dropped
          | some pl =>
            match d.timestamp with
            | none => .dropped
            | some ts =>
              match d.nonce with
              | none => .dropped
              | some nonce =>
                match d.sequence with
                | none => .dropped
                | some sequence =>
                  match d.consistency_level with
                  | none => .dropped
                  | some cl =>
                    .emitted
                      { txHash := txHash
                        timestamp := ts
                        nonce := nonce % 2 ^ 32
                        sequence := sequence
                        emitterChain := aptosChainID
                        emitterAddress := a
                        payload := pl
                        consistencyLevel := cl % 2 ^ 8 }

/-- One element of the event-query response array: an envelope sequence
number and the nested data object, each possibly absent. -/
structure Chunk where
  sequence_number : Option Nat
  data : Option RawEventData
deriving DecidableEq, Repr

/-- Envelope sequence numbers present in a page, in page order. -/
def seqList (page : List Chunk) : List Nat := page.filterMap Chunk.sequence_number

/-- The Canonical Message a chunk yields when its envelope sequence number
and data are present and observeData emits. -/
def emitOf (c : Chunk) : Option MessagePublication :=
  match c.sequence_number, c.data with
  | some sq, some d =>
    match observeData d sq with
    | .emitted m => some m
    | _ => none
  | _, _ => none

/-- Messages a page yields, in page order. -/
def emitsOf (page : List Chunk) : List MessagePublication := page.filterMap emitOf

/-- The timer branch of Watcher.Run, iterating one fetched page from the
cursor state next_sequence: a chunk without sequence_number is skipped; with
the cursor still uninitialized (0) the cursor is set past the observed
sequence and the loop breaks without emitting; otherwise the cursor is set
to the sequence plus one (a 64-bit increment, hence the reduction), a chunk
without data is skipped, and otherwise observeData runs. The none result
stands for a Go panic inside observeData aborting the loop; otherwise the
result is the final cursor and the messages emitted in order. -/
def pollLoop : Nat → List Chunk → Option (Nat × List MessagePublication)
  | ns, [] => some (ns, [])
  | ns, c :: rest =>
    match c.sequence_number with
    | none => pollLoop ns rest
    | some sq =>
      if ns = 0 then some ((sq + 1) % u64Mod, [])
      else
        let ns2 := (sq + 1) % u64Mod
        match c.data with
        | none => pollLoop ns2 rest
        | some d =>
          match observeData d sq with
          | .crash => none
          | .dropped => pollLoop ns2 rest
          | .emitted m =>
            match pollLoop ns2 rest with
            | none => none
            | some (nf, ms) => some (nf, m :: ms)

/-- The replay branch of Watcher.Run iterating the page fetched for one
observation request (query limit 1): the loop stops at a chunk without
sequence_number, at a sequence number different from the requested one, and
at a chunk without data; otherwise it runs observeData and moves on. The
none result stands for a Go panic inside observeData. -/
def replayLoop (reqSeq : Nat) : List Chunk → Option (List MessagePublication)
  | [] => some []
  | c :: rest =>
    match c.sequence_number with
    | none => some []
    | some n =>
      if n ≠ reqSeq then some []
      else
        match c.data with
        | none => some []
        | some d =>
          match observeData d reqSeq with
          | .crash => none
          | .dropped => replayLoop reqSeq rest
          | .emitted m =>
            match replayLoop reqSeq rest with
            | none => none
            | some ms => some (m :: ms)

/-- Outcome of dispatching one observation request: the watcher goroutine
panics on a chain-id mismatch, or runs the replay loop. -/
inductive ReplayOutcome where
  | panicked
  | result (r : Option (List MessagePublication))
deriving DecidableEq, Repr

/-- The observation-request branch of Watcher.Run: a request whose chain id
differs from the Aptos chain id hits the panic statement; otherwise the
requested sequence is read from the request and the replay loop runs on the
fetched page. -/
def replayCycle (chainId : Nat) (reqSeq : Nat) (page : List Chunk) : ReplayOutcome :=
  if chainId ≠ aptosChainID then .panicked
  else .result (replayLoop reqSeq page)

/-- Response of the health query as the Run loop case-splits on it: a
transport error from retrievePayload, a body that is not valid JSON, or a
parsed body with an optional block_height field. -/
inductive HealthResponse where
  | transportError
  | invalidJson
  | ok (blockHeight : Option Nat)
deriving DecidableEq, Repr

/-- Continuation behaviour of one Run-loop step: the goroutine keeps
looping, or it sends the error to errC, which the enclosing select in Run
receives, making Run return. -/
inductive StepOutcome where
  | continueLoop
  | fatal
deriving DecidableEq, Repr

/-- The health phase of the timer branch of Watcher.Run: a transport error
increments the chain error count and sends the error to errC (Run returns);
an invalid JSON body increments the error count and continues; a valid body
continues, reporting height when block_height is present. The first
component is the AddErrorCount increment, the second the loop outcome. -/
def healthStep : HealthResponse → Nat × StepOutcome
  | .transportError => (1, .fatal)
  | .invalidJson => (1, .continueLoop)
  | .ok _ => (0, .continueLoop)

/-! Redeemer family (TypeScript redeem module). -/

/-- Chain identifier of Solana (CHAIN_ID_SOLANA), imported by the redeem
module from the chain-registry constants outside src. -/
def chainIdSolana : Nat := 1

/-- Chain identifier of NEAR (CHAIN_ID_NEAR), imported by the redeem module
from the chain-registry constants outside src. -/
def chainIdNear : Nat := 15

/-- Modelled from the spec: the maximum wire precision bound on Amount and
Fee of the transfer payload (the MAX_VAA_DECIMALS constant the redeem
module imports from utils, absent from src): eight decimals. -/
def maxVaaDecimals : Nat := 8

/-- Modelled from the spec: native precision of the destination gas asset
SOL (the WSOL_DECIMALS constant imported from utils, absent from src): nine
decimals. -/
def wsolDecimals : Nat := 9

/-- Modelled from the spec: the rescaling contract of section 4.3 — a wire
amount at precision dmax taken to destination precision ddst scales exactly
by a power of ten when ddst is at least dmax, and truncates excess digits
(integer division, never rounding up) when ddst is lower. -/
def rescale (a dmax ddst : Nat) : Nat :=
  if dmax ≤ ddst then a * 10 ^ (ddst - dmax) else a / 10 ^ (dmax - ddst)

/-- The target amount computed by redeemAndUnwrapOnSolana from the parsed
wire amount: amount * (WSOL_DECIMALS - MAX_VAA_DECIMALS) * 10, written
exactly as in source. -/
def targetAmount (amount : Nat) : Nat :=
  amount * (wsolDecimals - maxVaaDecimals) * 10

/-- Signing keys that can appear on the Solana transactions built here: the
payer whose address is given to the call, or the ancillary keypair
generated inside redeemAndUnwrapOnSolana. -/
inductive SignerKey where
  | payer
  | ancillary
deriving DecidableEq, Repr

/-- Instructions the two Solana redeem paths assemble, tagged with the
accounts and amount each instruction is built with. -/
inductive SolanaIx where
  | completeNative
  | completeWrapped
  | createAccount (funder newAccount : SignerKey)
  | initAccount (account owner : SignerKey)
  | transferIx (source dest authority : SignerKey) (amount : Nat)
  | closeAccount (account dest authority : SignerKey)
deriving DecidableEq, Repr

/-- A built Solana transaction: its instruction list in the order added,
and the keys passed to partialSign before it is returned (the payer signs
later, externally). -/
structure SolanaTx where
  instructions : List SolanaIx
  cosigners : List SignerKey
deriving DecidableEq, Repr

/-- Byte at an index of the certified-message transfer payload, read the
way Buffer.readUInt16BE reads: two consecutive bytes, failing (a thrown
RangeError) when the buffer is too short. -/
def readUInt16BE (payload : List Nat) (i : Nat) : Option Nat :=
  match payload.get? i, payload.get? (i + 1) with
  | some b1, some b2 => some (b1 * 256 + b2)
  | _, _ => none

/-- Target chain of a transfer payload: the big-endian 16-bit field at
offset 99, after the 1-byte type, 32-byte amount, 32-byte origin asset,
2-byte origin chain and 32-byte target address. redeemOnSolana never reads
it; it is used below to state what the function does not check. -/
def targetChainOf (payload : List Nat) : Option Nat := readUInt16BE payload 99

/-- redeemOnSolana: parses the VAA, reads the big-endian 16-bit origin
chain at payload offset 65 to decide the native-versus-wrapped entrypoint,
pushes that single completion instruction, and returns the transaction with
the payer as fee payer and no partial signing. There is no target-chain
comparison on this path. -/
def redeemOnSolana (payload : List Nat) : Except String SolanaTx :=
  match readUInt16BE payload 65 with
  | none => .error "RangeError"
  | some originChain =>
    if originChain = chainIdSolana then
      .ok { instructions := [.completeNative], cosigners := [] }
    else
      .ok { instructions := [.completeWrapped], cosigners := [] }

/-- redeemAndUnwrapOnSolana, from the point where the VAA and its transfer
payload have been parsed: the call throws when the target address fails to
resolve, and otherwise assembles one transaction adding, in source order,
the native completion instruction, the ancillary-account creation funded by
the payer, its initialization as a WSOL account owned by the payer, the
transfer of the rescaled target amount from the target account into the
ancillary account, and the close of the ancillary account back to the
payer; it then partial-signs with the ancillary keypair only. -/
def redeemAndUnwrapOnSolana (targetAddressResolved : Bool) (amount : Nat) :
    Except String SolanaTx :=
  if !targetAddressResolved then .error "Failed to read the target address."
  else
    .ok
      { instructions :=
          [.completeNative,
           .createAccount .payer .ancillary,
           .initAccount .ancillary .payer,
           .transferIx .payer .ancillary .payer (targetAmount amount),
           .closeAccount .ancillary .payer .payer]
        cosigners := [.ancillary] }

/-- Transfer fields _parseVAAAlgorand extracts from a certified message, as
redeemOnNear uses them. The fee is optional (undefined on some payload
types) and otherwise a 32-byte big-endian buffer. -/
structure ParsedVAANear where
  toChain : Nat
  toAddress : List Nat
  fromChain : Nat
  contract : String
  fee : Option (List Nat)
deriving DecidableEq, Repr

/-- The view-call environment redeemOnNear queries: hash_lookup of the
target-address hash (found flag and resolved account id), the foreign-asset
registry (empty string when the asset is unattested), the per-token
storage_balance_of view (none models the null balance of an unregistered
account), and the id of the calling account, which pays any fee. -/
structure NearEnv where
  hashLookup : String → Bool × String
  foreignAsset : Nat → String → String
  storageBalance : String → String → Option Unit
  accountId : String

/-- Mutating NEAR function calls redeemOnNear issues, in order. -/
inductive NearCall where
  | storageDeposit (token account : String)
  | submitVaa
deriving DecidableEq, Repr

/-- Hex rendering of a byte list (uint8ArrayToHex), two lowercase digits
per byte. -/
def bytesToHex (bs : List Nat) : String :=
  String.mk (bs.flatMap (fun b =>
    [(Nat.digitChar (b / 16 % 16)), (Nat.digitChar (b % 16))]))

/-- The all-zero asset-contract identifier redeemOnNear compares against. -/
def zeroContractHex : String := String.mk (List.replicate 64 (Char.ofNat 48))

/-- Test redeemOnNear applies to the fee: present and different from the
32-byte zero buffer (Buffer.compare against the zero buffer is nonzero
exactly when the bytes differ from 32 zero bytes). -/
def feeNonZero : Option (List Nat) → Bool
  | none => false
  | some b => decide (b ≠ List.replicate 32 0)

/-- redeemOnNear: rejects a message not destined for NEAR, resolves the
receiving account through hash_lookup (rejecting when absent), resolves the
foreign asset (rejecting the empty string of an unattested token), and for
a non-zero asset contract checks the receiver's storage balance, issuing
one storage_deposit when it is null, then independently does the same for
the calling account exactly when a non-zero fee is present; finally it
issues the submit_vaa completion call — twice, unconditionally, as in
source. The result is the ordered list of mutating calls. -/
def redeemOnNear (env : NearEnv) (p : ParsedVAANear) : Except String (List NearCall) :=
  if p.toChain ≠ chainIdNear then .error "Not destined for NEAR"
  else
    let lookup := env.hashLookup (bytesToHex p.toAddress)
    if !lookup.1 then .error "Unregistered receiver (receiving account is not registered)"
    else
      let user := lookup.2
      let token := env.foreignAsset p.fromChain p.contract
      if token = "" then .error "Unregistered token (this been attested yet?)"
      else
        let regCalls :=
          if p.contract ≠ zeroContractHex then
            (match env.storageBalance token user with
             | none => [NearCall.storageDeposit token user]
             | some _ => []) ++
            (if feeNonZero p.fee then
              match env.storageBalance token env.accountId with
              | none => [NearCall.storageDeposit token env.accountId]
              | some _ => []
             else [])
          else []
        .ok (regCalls ++ [NearCall.submitVaa, NearCall.submitVaa])

/-! Theorems. -/

/-- An emitted Canonical Message carries exactly the sequence value of the
data object it came from. -/
theorem observeData_emitted_sequence (d : RawEventData) (ns : Nat)
    (m : MessagePublication) (h : observeData d ns = .emitted m) :
    d.sequence = some m.sequence := by
  unfold observeData at h
  dsimp only at h
  repeat' split at h
  all_goals simp_all
  all_goals exact congrArg MessagePublication.sequence h

/-- C1 counterexample: a transport error on the health endpoint increments
the error count but is fatal — the error is sent to errC and Run returns —
contradicting the claim that a health failure never causes Run to return. -/
theorem health_transport_fatal_cex :
    healthStep HealthResponse.transportError = (1, StepOutcome.fatal) ∧
      StepOutcome.fatal ≠ StepOutcome.continueLoop := by
  constructor
  · rfl
  · intro h
    cases h

/-- C1 (amended): every failure of the health query increments the error
count by exactly one, and the watcher keeps running exactly when the
failure is an invalid JSON body; a transport error on the health query is
fatal and makes Run return. -/
theorem health_failure_behaviour (r : HealthResponse)
    (h : r = HealthResponse.transportError ∨ r = HealthResponse.invalidJson) :
    (healthStep r).1 = 1 ∧
      ((healthStep r).2 = StepOutcome.continueLoop ↔ r = HealthResponse.invalidJson) := by
  rcases h with h | h <;> subst h <;> exact ⟨rfl, by constructor <;> intro h2 <;> first | rfl | cases h2⟩

/-- Witness for the amended C1 theorem at the invalid JSON failure. -/
theorem health_failure_behaviour_witness :
    (healthStep HealthResponse.invalidJson).1 = 1 ∧
      ((healthStep HealthResponse.invalidJson).2 = StepOutcome.continueLoop ↔
        HealthResponse.invalidJson = HealthResponse.invalidJson) :=
  health_failure_behaviour HealthResponse.invalidJson (Or.inr rfl)

/-- C8: rescaling a wire amount from precision dmax to destination
precision ddst multiplies exactly by 10 ^ (ddst - dmax) when ddst is at
least dmax; when ddst is lower it truncates and never rounds up (the result
times the dropped power of ten is at most the amount, and adding one
overshoots it); and the unwrap redeemer's target amount coincides with the
wire amount rescaled from MAX_VAA_DECIMALS to WSOL_DECIMALS. -/
theorem rescale_correct (a dmax ddst : Nat) :
    (dmax ≤ ddst → rescale a dmax ddst = a * 10 ^ (ddst - dmax)) ∧
    (ddst < dmax →
      rescale a dmax ddst * 10 ^ (dmax - ddst) ≤ a ∧
      a < (rescale a dmax ddst + 1) * 10 ^ (dmax - ddst)) ∧
    targetAmount a = rescale a maxVaaDecimals wsolDecimals := by
  refine ⟨fun h => by simp [rescale, h], fun h => ?_, ?_⟩
  · have hnle : ¬ dmax ≤ ddst := Nat.not_le.2 h
    have hpow : 0 < 10 ^ (dmax - ddst) := Nat.pos_pow_of_pos _ (by norm_num)
    constructor
    · simpa [rescale, hnle] using Nat.div_mul_le_self a (10 ^ (dmax - ddst))
    · have hmod : a % 10 ^ (dmax - ddst) < 10 ^ (dmax - ddst) := Nat.mod_lt _ hpow
      have hdm := Nat.div_add_mod a (10 ^ (dmax - ddst))
      have hexp : (a / 10 ^ (dmax - ddst) + 1) * 10 ^ (dmax - ddst) =
          10 ^ (dmax - ddst) * (a / 10 ^ (dmax - ddst)) + 10 ^ (dmax - ddst) := by ring
      simp only [rescale, hnle, if_false]
      omega
  · simp [targetAmount, rescale, maxVaaDecimals, wsolDecimals]

/-- Witness for C8 at a = 123 with the concrete precisions 8 and 9. -/
theorem rescale_correct_witness :
    (rescale 123 8 9 = 123 * 10 ^ (9 - 8)) ∧
      (rescale 123 9 8 * 10 ^ (9 - 8) ≤ 123) ∧
      targetAmount 123 = rescale 123 maxVaaDecimals wsolDecimals :=
  ⟨(rescale_correct 123 8 9).1 (by decide),
   ((rescale_correct 123 9 8).2.1 (by decide)).1,
   (rescale_correct 123 8 9).2.2⟩

/-- C9: the emitter identifier "0" yields the all-zero 32-byte emitter
address, the identifier "123" yields its 64-bit big-endian encoding in the
low 8 bytes of the 32-byte address, and any identifier that fails the
numeric scan and is not the literal "0" drops the event with no emission. -/
theorem emitter_parsing (s : String) (d : RawEventData) (ns : Nat)
    (hfail : gjsonParseUint s = none) (hnz : s ≠ "0") (hs : d.sender = some s) :
    observeData d ns = ObserveResult.dropped ∧
    (∃ m, observeData ⟨some "0", some "0x0a", some 7, some 1, some 5, some 1⟩ 9 =
        .emitted m ∧ m.emitterAddress = List.replicate 32 0) ∧
    (∃ m, observeData ⟨some "123", some "0x0a", some 7, some 1, some 5, some 1⟩ 9 =
        .emitted m ∧
      m.emitterAddress = List.replicate 24 0 ++ [0, 0, 0, 0, 0, 0, 0, 123]) := by
  refine ⟨?_, ?_, ?_⟩
  · obtain ⟨sd, pl, ts, no, sq, cl⟩ := d
    simp only [RawEventData.sender] at hs
    subst hs
    simp [observeData, hfail, hnz]
  · exact ⟨{ txHash := List.replicate 24 0 ++ be8 9
             timestamp := 7
             nonce := 1
             sequence := 5
             emitterChain := aptosChainID
             emitterAddress := List.replicate 32 0
             payload := [10]
             consistencyLevel := 1 }, by decide, by decide⟩
  · exact ⟨{ txHash := List.replicate 24 0 ++ be8 9
             timestamp := 7
             nonce := 1
             sequence := 5
             emitterChain := aptosChainID
             emitterAddress := List.replicate 24 0 ++ [0, 0, 0, 0, 0, 0, 0, 123]
             payload := [10]
             consistencyLevel := 1 }, by decide, by decide⟩

/-- Witness for C9 at the identifier "abc". -/
theorem emitter_parsing_witness :
    observeData ⟨some "abc", some "0x0a", some 7, some 1, some 5, some 1⟩ 9 =
        ObserveResult.dropped ∧
    (∃ m, observeData ⟨some "0", some "0x0a", some 7, some 1, some 5, some 1⟩ 9 =
        .emitted m ∧ m.emitterAddress = List.replicate 32 0) ∧
    (∃ m, observeData ⟨some "123", some "0x0a", some 7, some 1, some 5, some 1⟩ 9 =
        .emitted m ∧
      m.emitterAddress = List.replicate 24 0 ++ [0, 0, 0, 0, 0, 0, 0, 123]) :=
  emitter_parsing "abc" ⟨some "abc", some "0x0a", some 7, some 1, some 5, some 1⟩ 9
    (by decide) (by decide) rfl

/-- C10: an observation request whose chain id differs from the Aptos chain
id makes the watcher goroutine panic at the dispatch point, rather than
dropping or logging the request. -/
theorem replay_wrong_chain_panics (chainId reqSeq : Nat) (page : List Chunk)
    (h : chainId ≠ aptosChainID) :
    replayCycle chainId reqSeq page = ReplayOutcome.panicked := by
  simp [replayCycle, h]

/-- Witness for C10 at chain id 1. -/
theorem replay_wrong_chain_panics_witness :
    replayCycle 1 0 [] = ReplayOutcome.panicked :=
  replay_wrong_chain_panics 1 0 [] (by decide)

/-- A transfer payload whose origin chain field (offset 65) is 2 and whose
target chain field (offset 99) is 4 — a message not destined for Solana. -/
def solanaCexPayload : List Nat :=
  List.replicate 65 0 ++ [0, 2] ++ List.replicate 32 0 ++ [0, 4]

/-- C2 counterexample: redeemOnSolana, given a certified message whose
target chain is 4 and not Solana, still constructs and returns the
completion transaction instead of failing — it never compares the target
chain field. -/
theorem redeem_solana_no_target_check_cex :
    redeemOnSolana solanaCexPayload =
      Except.ok { instructions := [SolanaIx.completeWrapped], cosigners := [] } ∧
    targetChainOf solanaCexPayload = some 4 ∧ chainIdSolana ≠ 4 :=
  ⟨rfl, rfl, by decide⟩

/-- C2 (amended): the target-chain guard exists only on the NEAR redeemer —
redeemOnNear fails with the destination-state error before issuing any call
whenever the certified message targets a chain other than NEAR, while
redeemOnSolana builds its transaction without any client-side target-chain
check. -/
theorem redeem_near_wrong_target_rejected (env : NearEnv) (p : ParsedVAANear)
    (h : p.toChain ≠ chainIdNear) :
    redeemOnNear env p = Except.error "Not destined for NEAR" := by
  simp [redeemOnNear, h]

/-- Witness for the amended C2 theorem: a parsed message with target chain
1 against a fully-registered environment. -/
theorem redeem_near_wrong_target_rejected_witness :
    redeemOnNear
        { hashLookup := fun _ => (true, "alice.near")
          foreignAsset := fun _ _ => "token.near"
          storageBalance := fun _ _ => some ()
          accountId := "payer.near" }
        { toChain := 1, toAddress := [], fromChain := 2, contract := "00", fee := none } =
      Except.error "Not destined for NEAR" :=
  redeem_near_wrong_target_rejected _ _ (by decide)

/-- C7: every transaction the native-unwrap redeemer returns consists of
exactly the completion instruction, the ancillary-account creation, its
initialization, the transfer of the rescaled amount, and the account close,
in that order, and is partially co-signed by the ephemeral ancillary key
only. -/
theorem unwrap_tx_shape (resolved : Bool) (amount : Nat) (tx : SolanaTx)
    (h : redeemAndUnwrapOnSolana resolved amount = Except.ok tx) :
    tx.instructions =
      [SolanaIx.completeNative,
       SolanaIx.createAccount SignerKey.payer SignerKey.ancillary,
       SolanaIx.initAccount SignerKey.ancillary SignerKey.payer,
       SolanaIx.transferIx SignerKey.payer SignerKey.ancillary SignerKey.payer
         (targetAmount amount),
       SolanaIx.closeAccount SignerKey.ancillary SignerKey.payer SignerKey.payer] ∧
    tx.cosigners = [SignerKey.ancillary] := by
  cases resolved with
  | false => simp [redeemAndUnwrapOnSolana] at h
  | true =>
    simp only [redeemAndUnwrapOnSolana, Bool.not_true, Bool.false_eq_true, if_false,
      Except.ok.injEq] at h
    subst h
    exact ⟨rfl, rfl⟩

/-- Witness for C7 at the wire amount 5. -/
theorem unwrap_tx_shape_witness :
    (SolanaTx.mk
        [SolanaIx.completeNative,
         SolanaIx.createAccount SignerKey.payer SignerKey.ancillary,
         SolanaIx.initAccount SignerKey.ancillary SignerKey.payer,
         SolanaIx.transferIx SignerKey.payer SignerKey.ancillary SignerKey.payer
           (targetAmount 5),
         SolanaIx.closeAccount SignerKey.ancillary SignerKey.payer SignerKey.payer]
        [SignerKey.ancillary]).instructions =
      [SolanaIx.completeNative,
       SolanaIx.createAccount SignerKey.payer SignerKey.ancillary,
       SolanaIx.initAccount SignerKey.ancillary SignerKey.payer,
       SolanaIx.transferIx SignerKey.payer SignerKey.ancillary SignerKey.payer
         (targetAmount 5),
       SolanaIx.closeAccount SignerKey.ancillary SignerKey.payer SignerKey.payer] ∧
    (SolanaTx.mk
        [SolanaIx.completeNative,
         SolanaIx.createAccount SignerKey.payer SignerKey.ancillary,
         SolanaIx.initAccount SignerKey.ancillary SignerKey.payer,
         SolanaIx.transferIx SignerKey.payer SignerKey.ancillary SignerKey.payer
           (targetAmount 5),
         SolanaIx.closeAccount SignerKey.ancillary SignerKey.payer SignerKey.payer]
        [SignerKey.ancillary]).cosigners = [SignerKey.ancillary] :=
  unwrap_tx_shape true 5 _ rfl

/-- C3 counterexample: an event with every required field present but whose
payload string is shorter than two characters makes decoding crash (the Go
slice expression panics) instead of dropping or emitting — so decoding does
not avoid crashes in all cases. -/
theorem observe_crash_cex :
    observeData ⟨some "1", some "0", some 0, some 0, some 0, some 0⟩ 0 =
      ObserveResult.crash ∧ ObserveResult.crash ≠ ObserveResult.dropped := by decide

/-- An event record missing at least one of the six required fields. -/
def missingAnyField (d : RawEventData) : Prop :=
  d.sender = none ∨ d.payload = none ∨ d.timestamp = none ∨ d.nonce = none ∨
  d.sequence = none ∨ d.consistency_level = none

/-- C3 (amended): provided any present payload string has at least two
characters (the two-byte prefix the code strips unconditionally), decoding
never crashes — so it either drops with no emission or emits one complete
message — and it drops any event missing one of the six required fields.
A present payload string shorter than two characters crashes decoding, as
the counterexample shows. -/
theorem observe_drop_discipline (d : RawEventData) (ns : Nat)
    (hp : ∀ s, d.payload = some s → 2 ≤ s.length) :
    observeData d ns ≠ ObserveResult.crash ∧
    (missingAnyField d → observeData d ns = ObserveResult.dropped) := by
  obtain ⟨sd, pl, ts, no, sq, cl⟩ := d
  simp only [missingAnyField] at *
  constructor
  · intro hcrash
    unfold observeData at hcrash
    dsimp only at hcrash
    repeat' split at hcrash
    all_goals simp_all
    all_goals exact absurd hp (by omega)
  · intro hmiss
    unfold observeData
    dsimp only
    repeat' split
    all_goals simp_all
    all_goals exact absurd hp (by omega)

/-- Final cursor value after a warm poll over a page: one past the last
envelope sequence number when the page carries one, the cursor unchanged
otherwise. -/
def finalCursor (ns : Nat) (page : List Chunk) : Nat :=
  match (seqList page).getLast? with
  | some s => s + 1
  | none => ns

/-- The warm poll loop, started from a nonzero cursor on a page whose
sequence numbers stay below the 64-bit wrap and whose events do not crash
decoding, computes the final cursor and emits exactly the messages the
valid events of the page yield, in page order. -/
theorem pollLoop_eq (ns : Nat) (page : List Chunk)
    (hns : ns ≠ 0)
    (hhi : ∀ s ∈ seqList page, s + 1 < u64Mod)
    (hnocrash : ∀ c ∈ page, ∀ d, c.data = some d → ∀ s, c.sequence_number = some s →
      observeData d s ≠ ObserveResult.crash) :
    pollLoop ns page = some (finalCursor ns page, emitsOf page) := by
  induction page generalizing ns with
  | nil => simp [pollLoop, finalCursor, seqList, emitsOf]
  | cons c rest ih =>
    have hnc2 : ∀ c2 ∈ rest, ∀ d, c2.data = some d → ∀ s, c2.sequence_number = some s →
        observeData d s ≠ ObserveResult.crash :=
      fun c2 hc2 => hnocrash c2 (List.mem_cons_of_mem _ hc2)
    rcases hsq : c.sequence_number with _ | s
    · have hsl : seqList (c :: rest) = seqList rest := by simp [seqList, hsq]
      have hhi2 : ∀ t ∈ seqList rest, t + 1 < u64Mod := fun t ht =>
        hhi t (by rw [hsl]; exact ht)
      have h1 : pollLoop ns (c :: rest) = pollLoop ns rest := by
        simp [pollLoop, hsq]
      have hem : emitsOf (c :: rest) = emitsOf rest := by
        simp [emitsOf, List.filterMap_cons, emitOf, hsq]
      have hfc : finalCursor ns (c :: rest) = finalCursor ns rest := by
        simp [finalCursor, hsl]
      rw [h1, ih ns hns hhi2 hnc2, hfc, hem]
    · have hsl : seqList (c :: rest) = s :: seqList rest := by simp [seqList, hsq]
      have hlt : s + 1 < u64Mod := hhi s (by rw [hsl]; exact List.mem_cons_self s _)
      have hmod : (s + 1) % u64Mod = s + 1 := Nat.mod_eq_of_lt hlt
      have hns2 : s + 1 ≠ 0 := Nat.succ_ne_zero s
      have hhi2 : ∀ t ∈ seqList rest, t + 1 < u64Mod := fun t ht =>
        hhi t (by rw [hsl]; exact List.mem_cons_of_mem _ ht)
      have hfc : finalCursor ns (c :: rest) = finalCursor (s + 1) rest := by
        simp only [finalCursor, hsl]
        cases hl2 : seqList rest with
        | nil => simp
        | cons a t =>
          cases hgl : (a :: t).getLast? with
          | none => exact absurd (List.getLast?_eq_none_iff.1 hgl) (by simp)
          | some u => simp [hgl]
      rcases hd : c.data with _ | d
      · have h1 : pollLoop ns (c :: rest) = pollLoop (s + 1) rest := by
          simp [pollLoop, hsq, hd, hns, hmod]
        have hem : emitsOf (c :: rest) = emitsOf rest := by
          simp [emitsOf, List.filterMap_cons, emitOf, hsq, hd]
        rw [h1, ih (s + 1) hns2 hhi2 hnc2, hfc, hem]
      · rcases hob : observeData d s with _ | _ | m
        · exact absurd hob (hnocrash c (List.mem_cons_self c rest) d hd s hsq)
        · have h1 : pollLoop ns (c :: rest) = pollLoop (s + 1) rest := by
            simp [pollLoop, hsq, hd, hob, hns, hmod]
          have hem : emitsOf (c :: rest) = emitsOf rest := by
            simp [emitsOf, List.filterMap_cons, emitOf, hsq, hd, hob]
          rw [h1, ih (s + 1) hns2 hhi2 hnc2, hfc, hem]
        · have hrec := ih (s + 1) hns2 hhi2 hnc2
          have h1 : pollLoop ns (c :: rest) =
              some (finalCursor (s + 1) rest, m :: emitsOf rest) := by
            simp [pollLoop, hsq, hd, hob, hns, hmod, hrec]
          have hem : emitsOf (c :: rest) = m :: emitsOf rest := by
            simp [emitsOf, List.filterMap_cons, emitOf, hsq, hd, hob]
          rw [h1, hfc, hem]

/-- For well-formed events (data sequence field equal to the envelope
sequence number), the sequence values of the emitted messages form a
sublist of the envelope sequence numbers of the page. -/
theorem emits_seq_sublist (page : List Chunk)
    (hmatch : ∀ c ∈ page, ∀ d, c.data = some d → d.sequence = c.sequence_number) :
    ((emitsOf page).map MessagePublication.sequence).Sublist (seqList page) := by
  induction page with
  | nil => simp [emitsOf, seqList]
  | cons c rest ih =>
    have ih2 := ih (fun c2 hc2 => hmatch c2 (List.mem_cons_of_mem _ hc2))
    rcases hsq : c.sequence_number with _ | n
    · have h1 : emitsOf (c :: rest) = emitsOf rest := by
        simp [emitsOf, List.filterMap_cons, emitOf, hsq]
      have h2 : seqList (c :: rest) = seqList rest := by simp [seqList, hsq]
      rw [h1, h2]
      exact ih2
    · have h2 : seqList (c :: rest) = n :: seqList rest := by simp [seqList, hsq]
      rcases hd : c.data with _ | d
      · have h1 : emitsOf (c :: rest) = emitsOf rest := by
          simp [emitsOf, List.filterMap_cons, emitOf, hsq, hd]
        rw [h1, h2]
        exact ih2.cons n
      · rcases hob : observeData d n with _ | _ | m
        · have h1 : emitsOf (c :: rest) = emitsOf rest := by
            simp [emitsOf, List.filterMap_cons, emitOf, hsq, hd, hob]
          rw [h1, h2]
          exact ih2.cons n
        · have h1 : emitsOf (c :: rest) = emitsOf rest := by
            simp [emitsOf, List.filterMap_cons, emitOf, hsq, hd, hob]
          rw [h1, h2]
          exact ih2.cons n
        · have h1 : emitsOf (c :: rest) = m :: emitsOf rest := by
            simp [emitsOf, List.filterMap_cons, emitOf, hsq, hd, hob]
          have hs1 := observeData_emitted_sequence d n m hob
          have hs2 := hmatch c (List.mem_cons_self c rest) d hd
          rw [hsq] at hs2
          injection hs2.symm.trans hs1 with he
          rw [h1, h2, List.map_cons, ← he]
          exact ih2.cons₂ n

/-- In a strictly increasing list the last element bounds every element. -/
theorem pairwise_lt_le_getLast (l : List Nat) (hp : l.Pairwise (· < ·)) :
    ∀ s ∈ l, ∀ mx, l.getLast? = some mx → s ≤ mx := by
  induction l with
  | nil => simp
  | cons a t ih =>
    intro s hs mx hmx
    rcases t with _ | ⟨b, t2⟩
    · simp at hs hmx
      omega
    · rw [List.getLast?_cons_cons] at hmx
      have hpc := List.pairwise_cons.1 hp
      rcases List.mem_cons.1 hs with rfl | hs2
      · exact le_of_lt (hpc.1 mx (List.mem_of_getLast?_eq_some hmx))
      · exact ih hpc.2 s hs2 mx hmx

/-- C4: a warm poll from an initialized cursor C over an ascending page of
events at or after C with matching data sequence fields, none of which
crashes decoding, emits exactly the messages of the valid events in page
order, with strictly increasing sequence values all at least C, and
advances the cursor to one past the maximum sequence seen. -/
theorem warm_poll_correct (C : Nat) (page : List Chunk)
    (hC : C ≠ 0) (hne : page ≠ [])
    (hseq : ∀ c ∈ page, c.sequence_number.isSome = true)
    (hasc : (seqList page).Pairwise (· < ·))
    (hlo : ∀ s ∈ seqList page, C ≤ s)
    (hhi : ∀ s ∈ seqList page, s + 1 < u64Mod)
    (hmatch : ∀ c ∈ page, ∀ d, c.data = some d → d.sequence = c.sequence_number)
    (hnocrash : ∀ c ∈ page, ∀ d, c.data = some d → ∀ s, c.sequence_number = some s →
      observeData d s ≠ ObserveResult.crash) :
    ∃ mx, (seqList page).getLast? = some mx ∧ (∀ s ∈ seqList page, s ≤ mx) ∧
      pollLoop C page = some (mx + 1, emitsOf page) ∧
      ((emitsOf page).map MessagePublication.sequence).Pairwise (· < ·) ∧
      (∀ m ∈ emitsOf page, C ≤ m.sequence) := by
  have hnonempty : seqList page ≠ [] := by
    rcases page with _ | ⟨c, rest⟩
    · exact absurd rfl hne
    · have hc := hseq c (List.mem_cons_self c rest)
      rcases hsq : c.sequence_number with _ | n
      · rw [hsq] at hc
        simp at hc
      · simp [seqList, hsq]
  obtain ⟨mx, hmx⟩ : ∃ mx, (seqList page).getLast? = some mx := by
    cases hgl : (seqList page).getLast? with
    | none => exact absurd (List.getLast?_eq_none_iff.1 hgl) hnonempty
    | some mx => exact ⟨mx, rfl⟩
  have hsub := emits_seq_sublist page hmatch
  refine ⟨mx, hmx, fun s hs => pairwise_lt_le_getLast _ hasc s hs mx hmx, ?_, ?_, ?_⟩
  · rw [pollLoop_eq C page hC hhi hnocrash]
    simp [finalCursor, hmx]
  · exact List.Pairwise.sublist hsub hasc
  · intro m hm
    exact hlo _ (hsub.subset (List.mem_map_of_mem _ hm))

/-- Witness for C4: cursor 3 over an ascending two-event page with
sequences 3 and 5. -/
theorem warm_poll_correct_witness :
    ∃ mx,
      (seqList [⟨some 3, some ⟨some "0", some "0x0a", some 7, some 1, some 3, some 1⟩⟩,
        ⟨some 5, some ⟨some "0", some "0x0b", some 8, some 2, some 5, some 1⟩⟩]).getLast? =
          some mx ∧
      (∀ s ∈ seqList [⟨some 3, some ⟨some "0", some "0x0a", some 7, some 1, some 3, some 1⟩⟩,
        ⟨some 5, some ⟨some "0", some "0x0b", some 8, some 2, some 5, some 1⟩⟩], s ≤ mx) ∧
      pollLoop 3 [⟨some 3, some ⟨some "0", some "0x0a", some 7, some 1, some 3, some 1⟩⟩,
          ⟨some 5, some ⟨some "0", some "0x0b", some 8, some 2, some 5, some 1⟩⟩] =
        some (mx + 1,
          emitsOf [⟨some 3, some ⟨some "0", some "0x0a", some 7, some 1, some 3, some 1⟩⟩,
            ⟨some 5, some ⟨some "0", some "0x0b", some 8, some 2, some 5, some 1⟩⟩]) ∧
      ((emitsOf [⟨some 3, some ⟨some "0", some "0x0a", some 7, some 1, some 3, some 1⟩⟩,
          ⟨some 5, some ⟨some "0", some "0x0b", some 8, some 2, some 5, some 1⟩⟩]).map
        MessagePublication.sequence).Pairwise (· < ·) ∧
      (∀ m ∈ emitsOf [⟨some 3, some ⟨some "0", some "0x0a", some 7, some 1, some 3, some 1⟩⟩,
          ⟨some 5, some ⟨some "0", some "0x0b", some 8, some 2, some 5, some 1⟩⟩],
        3 ≤ m.sequence) :=
  warm_poll_correct 3
    [⟨some 3, some ⟨some "0", some "0x0a", some 7, some 1, some 3, some 1⟩⟩,
     ⟨some 5, some ⟨some "0", some "0x0b", some 8, some 2, some 5, some 1⟩⟩]
    (by decide) (by decide) (by decide) (by decide) (by decide) (by decide)
    (by decide) (by decide)

/-- Computation of the replay loop on a one-element page. -/
theorem replayLoop_singleton (S : Nat) (c : Chunk) :
    replayLoop S [c] =
      match c.sequence_number with
      | none => some []
      | some n =>
        if n ≠ S then some []
        else
          match c.data with
          | none => some []
          | some d =>
            match observeData d S with
            | .crash => none
            | .dropped => some []
            | .emitted m => some [m] := by
  rcases c with ⟨sq, dt⟩
  rcases sq with _ | n
  · rfl
  · by_cases hne : n = S
    · subst hne
      rcases dt with _ | d
      · simp [replayLoop]
      · rcases hob : observeData d n with _ | _ | m <;> simp [replayLoop, hob]
    · simp [replayLoop, hne]

/-- C5: on the page fetched for one replay request (query limit one, hence
at most one element), when the events are well formed (the data sequence
field matches the envelope sequence number), the replay cycle emits either
nothing or exactly one message whose sequence equals the requested S, and a
page whose returned sequence number differs from S emits nothing. -/
theorem replay_correct (S : Nat) (page : List Chunk)
    (hlen : page.length ≤ 1)
    (hmatch : ∀ c ∈ page, ∀ d, c.data = some d → d.sequence = c.sequence_number) :
    (∀ msgs, replayLoop S page = some msgs →
      msgs = [] ∨ ∃ m, msgs = [m] ∧ m.sequence = S) ∧
    (∀ c ∈ page, ∀ n, c.sequence_number = some n → n ≠ S →
      replayLoop S page = some []) := by
  rcases page with _ | ⟨c, rest⟩
  · constructor
    · intro msgs h
      simp only [replayLoop, Option.some.injEq] at h
      exact Or.inl h.symm
    · intro c hc
      exact absurd hc (by simp)
  · have hr0 : rest = [] := by
      cases rest with
      | nil => rfl
      | cons a t => simp at hlen
    subst hr0
    rw [replayLoop_singleton]
    constructor
    · intro msgs h
      rcases hsq : c.sequence_number with _ | n
      · simp only [hsq, Option.some.injEq] at h
        exact Or.inl h.symm
      · simp only [hsq] at h
        by_cases hne : n = S
        · subst hne
          rw [if_neg (by simp)] at h
          rcases hd : c.data with _ | d
          · simp only [hd, Option.some.injEq] at h
            exact Or.inl h.symm
          · simp only [hd] at h
            rcases hob : observeData d n with _ | _ | m
            · rw [hob] at h; cases h
            · rw [hob] at h
              simp only [Option.some.injEq] at h
              exact Or.inl h.symm
            · rw [hob] at h
              simp only [Option.some.injEq] at h
              subst h
              refine Or.inr ⟨m, rfl, ?_⟩
              have hseq := observeData_emitted_sequence d n m hob
              have hmc := hmatch c (by simp) d hd
              rw [hsq] at hmc
              injection hmc.symm.trans hseq with h2
              exact h2.symm
        · rw [if_pos hne] at h
          simp only [Option.some.injEq] at h
          exact Or.inl h.symm
    · intro c2 hc2 n hn hne
      have hcc : c2 = c := by simpa using hc2
      subst hcc
      simp only [hn]
      rw [if_pos hne]

/-- Witness for C5: a matching one-event page for requested sequence 7. -/
theorem replay_correct_witness :
    (∀ msgs,
      replayLoop 7 [⟨some 7, some ⟨some "0", some "0x0a", some 3, some 1, some 7, some 1⟩⟩] =
          some msgs →
        msgs = [] ∨ ∃ m, msgs = [m] ∧ m.sequence = 7) ∧
    (∀ c ∈ [(⟨some 7, some ⟨some "0", some "0x0a", some 3, some 1, some 7, some 1⟩⟩ : Chunk)],
      ∀ n, c.sequence_number = some n → n ≠ 7 →
        replayLoop 7 [⟨some 7, some ⟨some "0", some "0x0a", some 3, some 1, some 7, some 1⟩⟩] =
          some []) :=
  replay_correct 7 [⟨some 7, some ⟨some "0", some "0x0a", some 3, some 1, some 7, some 1⟩⟩]
    (by decide) (by decide)

/-- Whether a NEAR call is a storage_deposit registration for the given
account. -/
def isDepositFor (a : String) : NearCall → Bool
  | .storageDeposit _ acc => decide (acc = a)
  | .submitVaa => false

/-- C6: on the NEAR redeem path with a non-native-zero asset contract, the
issued call trace is a block of registration calls followed by the
completion call; the receiving account gets exactly one storage_deposit
when its storage balance is null and zero otherwise, and independently the
fee-paying account gets exactly one storage_deposit when the message
carries a non-zero fee and its balance is null, zero otherwise. -/
theorem near_registration_discipline (env : NearEnv) (p : ParsedVAANear)
    (h1 : p.toChain = chainIdNear)
    (h2 : (env.hashLookup (bytesToHex p.toAddress)).1 = true)
    (h3 : env.foreignAsset p.fromChain p.contract ≠ "")
    (h4 : p.contract ≠ zeroContractHex)
    (h5 : (env.hashLookup (bytesToHex p.toAddress)).2 ≠ env.accountId) :
    ∃ ds,
      redeemOnNear env p = Except.ok (ds ++ [NearCall.submitVaa, NearCall.submitVaa]) ∧
      (∀ c ∈ ds, ∃ t a, c = NearCall.storageDeposit t a) ∧
      ds.countP (isDepositFor ((env.hashLookup (bytesToHex p.toAddress)).2)) =
        (if env.storageBalance (env.foreignAsset p.fromChain p.contract)
            ((env.hashLookup (bytesToHex p.toAddress)).2) = none then 1 else 0) ∧
      ds.countP (isDepositFor env.accountId) =
        (if feeNonZero p.fee = true ∧
            env.storageBalance (env.foreignAsset p.fromChain p.contract) env.accountId =
              none
          then 1 else 0) := by
  have hred : redeemOnNear env p = Except.ok (
      ((match env.storageBalance (env.foreignAsset p.fromChain p.contract)
          ((env.hashLookup (bytesToHex p.toAddress)).2) with
        | none => [NearCall.storageDeposit (env.foreignAsset p.fromChain p.contract)
            ((env.hashLookup (bytesToHex p.toAddress)).2)]
        | some _ => []) ++
        (if feeNonZero p.fee then
          match env.storageBalance (env.foreignAsset p.fromChain p.contract)
              env.accountId with
          | none => [NearCall.storageDeposit (env.foreignAsset p.fromChain p.contract)
              env.accountId]
          | some _ => []
         else [])) ++ [NearCall.submitVaa, NearCall.submitVaa]) := by
    unfold redeemOnNear
    simp [h1, h2, h3, h4]
  rcases hbu : env.storageBalance (env.foreignAsset p.fromChain p.contract)
      ((env.hashLookup (bytesToHex p.toAddress)).2) with _ | bu <;>
    rcases hff : feeNonZero p.fee with _ | _ <;>
      rcases hba : env.storageBalance (env.foreignAsset p.fromChain p.contract)
          env.accountId with _ | ba <;>
    simp only [hbu, hff, hba, if_true, if_false] at hred <;>
    refine ⟨_, hred, ?_, ?_, ?_⟩ <;>
    simp_all [isDepositFor, Ne.symm h5]

/-- Witness for C6: a receiver registered for the asset, an unregistered
fee payer and a non-zero fee, so exactly the fee payer gets one
registration call. -/
theorem near_registration_discipline_witness :
    ∃ ds,
      redeemOnNear
          { hashLookup := fun _ => (true, "alice.near")
            foreignAsset := fun _ _ => "token.near"
            storageBalance := fun _ a => if a = "alice.near" then some () else none
            accountId := "payer.near" }
          { toChain := 15, toAddress := [7], fromChain := 2,
            contract := "11", fee := some (List.replicate 31 0 ++ [1]) } =
        Except.ok (ds ++ [NearCall.submitVaa, NearCall.submitVaa]) ∧
      (∀ c ∈ ds, ∃ t a, c = NearCall.storageDeposit t a) ∧
      ds.countP (isDepositFor "alice.near") = (if (some () : Option Unit) = none then 1 else 0) ∧
      ds.countP (isDepositFor "payer.near") =
        (if feeNonZero (some (List.replicate 31 0 ++ [1])) = true ∧
            (none : Option Unit) = none then 1 else 0) := by
  have h := near_registration_discipline
    { hashLookup := fun _ => (true, "alice.near")
      foreignAsset := fun _ _ => "token.near"
      storageBalance := fun _ a => if a = "alice.near" then some () else none
      accountId := "payer.near" }
    { toChain := 15, toAddress := [7], fromChain := 2,
      contract := "11", fee := some (List.replicate 31 0 ++ [1]) }
    (by decide) (by decide) (by decide) (by decide) (by decide)
  simpa using h

/-- Witness for the amended C3 theorem at an event missing its nonce. -/
theorem observe_drop_discipline_witness :
    observeData ⟨some "1", some "0x0a", some 3, none, some 4, some 1⟩ 2 ≠
        ObserveResult.crash ∧
      (missingAnyField ⟨some "1", some "0x0a", some 3, none, some 4, some 1⟩ →
        observeData ⟨some "1", some "0x0a", some 3, none, some 4, some 1⟩ 2 =
          ObserveResult.dropped) :=
  observe_drop_discipline ⟨some "1", some "0x0a", some 3, none, some 4, some 1⟩ 2
    (by decide)
